import Mathlib

/-
Verification development for the flytekit type-transformer registry and
conversion engine (src/flytekit/core/type_engine.py).

The wire-type and wire-value data models (flytekit.models.types /
flytekit.models.literals) are not part of the sources; they are modelled
from the specification (spec.md section 3).  All algorithms (castability,
transformer dispatch, the simple/union/dataclass transformers, the literals
resolver) are translated directly from src/flytekit/core/type_engine.py.
-/

namespace Flyte

/-- Modelled from the spec: the closed vocabulary of simple scalar wire-type
kinds (flytekit.models.types.SimpleType). -/
inductive SimpleTy where
  | noneTy
  | integer
  | float
  | boolean
  | string
  | datetime
  | duration
  | struct
deriving DecidableEq

/-- Modelled from the spec: the orthogonal decorations of a wire type — a
free-form metadata payload, the structural tag (TypeStructure.tag, used to
disambiguate union variants), and an arbitrary annotation payload.  The
metadata and annotation payloads are opaque to every algorithm in the core,
so they are carried as opaque numbers. -/
structure Deco where
  metadata : Option Nat
  tag : Option String
  annot : Option Nat
deriving DecidableEq

mutual
/-- Modelled from the spec: the wire-type model (flytekit.models.types
LiteralType, aka WireType): a closed variant over simple scalar kind,
collection-of, map-of (string keys are implicit), enum (ordered values),
union (ordered variants), blob (format and dimensionality) and
structured-dataset (format, external schema and ordered columns), each
carrying the orthogonal decorations.  Exactly one variant field of the
Python record is populated, which the variant representation enforces. -/
inductive LiteralType where
  | simple (s : SimpleTy) (d : Deco)
  | collection (elem : LiteralType) (d : Deco)
  | mapValue (val : LiteralType) (d : Deco)
  | enumType (values : List String) (d : Deco)
  | unionType (variants : LTList) (d : Deco)
  | blob (format : String) (dim : Nat) (d : Deco)
  | sds (format : String) (extType : String) (extBytes : String)
      (columns : ColList) (d : Deco)
deriving DecidableEq

/-- Ordered sequence of union variant wire types. -/
inductive LTList where
  | nil
  | cons (head : LiteralType) (tail : LTList)
deriving DecidableEq

/-- Ordered structured-dataset columns: name paired with a wire type. -/
inductive ColList where
  | nil
  | cons (name : String) (ty : LiteralType) (tail : ColList)
deriving DecidableEq
end

/-- A decoration record with all three fields absent. -/
def noDeco : Deco := ⟨Option.none, Option.none, Option.none⟩

/-- Conversion of the variant list to a Lean list, for statements. -/
def LTList.toList : LTList → List LiteralType
  | .nil => []
  | .cons h t => h :: t.toList

/-- Number of structured-dataset columns (len(columns)). -/
def ColList.length : ColList → Nat
  | .nil => 0
  | .cons _ _ t => 1 + t.length

/-- The decorations of a wire type. -/
def LiteralType.deco : LiteralType → Deco
  | .simple _ d => d
  | .collection _ d => d
  | .mapValue _ d => d
  | .enumType _ d => d
  | .unionType _ d => d
  | .blob _ _ d => d
  | .sds _ _ _ _ d => d

/-- `_add_tag_to_type` (type_engine.py lines 706-708): replaces the
structure of the wire type by a TypeStructure carrying the given tag. -/
def addTagToType (x : LiteralType) (tag : String) : LiteralType :=
  match x with
  | .simple s d => .simple s ⟨d.metadata, some tag, d.annot⟩
  | .collection e d => .collection e ⟨d.metadata, some tag, d.annot⟩
  | .mapValue v d => .mapValue v ⟨d.metadata, some tag, d.annot⟩
  | .enumType vs d => .enumType vs ⟨d.metadata, some tag, d.annot⟩
  | .unionType vs d => .unionType vs ⟨d.metadata, some tag, d.annot⟩
  | .blob f dim d => .blob f dim ⟨d.metadata, some tag, d.annot⟩
  | .sds f et eb cols d => .sds f et eb cols ⟨d.metadata, some tag, d.annot⟩

/-- `_type_essence` (type_engine.py lines 711-718): a copy of the wire type
with the top-level metadata, structure and annotation cleared (nested
decorations are kept, exactly as in the source, which only nulls the
top-level fields of the copy). -/
def typeEssence : LiteralType → LiteralType
  | .simple s _ => .simple s noDeco
  | .collection e _ => .collection e noDeco
  | .mapValue v _ => .mapValue v noDeco
  | .enumType vs _ => .enumType vs noDeco
  | .unionType vs _ => .unionType vs noDeco
  | .blob f dim _ => .blob f dim noDeco
  | .sds f et eb cols _ => .sds f et eb cols noDeco

/-- upstream.enum_type is not None. -/
def isEnumLT : LiteralType → Bool
  | .enumType _ _ => true
  | _ => false

/-- downstream.simple == SimpleType.STRING. -/
def isStringSimple : LiteralType → Bool
  | .simple .string _ => true
  | _ => false

/-- expected.union_type is not None (used by TypeEngine.to_literal). -/
def isUnionLT : LiteralType → Bool
  | .unionType _ _ => true
  | _ => false

/-- The tail of `_are_types_castable` (lines 780-788): the enum-to-string
rule followed by the essence comparison. -/
def castFinal (up dn : LiteralType) : Bool :=
  (isEnumLT up && isStringSimple dn) || decide (typeEssence up = typeEssence dn)

mutual
/-- `_are_types_castable` (type_engine.py lines 721-788), checked in the
source's order: collection vs collection, map vs map, structured dataset vs
structured dataset (format, external schema, ordered column match), all
upstream union variants, any downstream union variant (falling through to
the final checks when none matches), enum-to-string, essence equality. -/
def areTypesCastable (up dn : LiteralType) : Bool :=
  match up, dn with
  | .collection u _, .collection d _ => areTypesCastable u d
  | .collection _ _, _ => false
  | .mapValue u _, .mapValue d _ => areTypesCastable u d
  | .mapValue _ _, _ => false
  | .sds uf ut ub ucols _, .sds df dt db dcols _ =>
      uf == df && ut == dt && ub == db && (ucols.length == dcols.length) &&
        columnsCastable ucols dcols
  | .sds _ _ _ _ _, _ => false
  | .unionType vs _, dn => allCastableTo vs dn
  | up, .unionType ws d => someCastableFrom up ws || castFinal up (.unionType ws d)
  | up, dn => castFinal up dn

/-- The upstream-union loop: every upstream variant must be castable. -/
def allCastableTo : LTList → LiteralType → Bool
  | .nil, _ => true
  | .cons v rest, dn => areTypesCastable v dn && allCastableTo rest dn

/-- The downstream-union loop: some downstream variant must accept. -/
def someCastableFrom : LiteralType → LTList → Bool
  | _, .nil => false
  | up, .cons w rest => areTypesCastable up w || someCastableFrom up rest

/-- The structured-dataset column walk: order-sensitive name equality and
recursive castability of the column types. -/
def columnsCastable : ColList → ColList → Bool
  | .nil, .nil => true
  | .cons _ _ _, .nil => false
  | .nil, .cons _ _ _ => false
  | .cons un ut urest, .cons dn dt drest =>
      un == dn && areTypesCastable ut dt && columnsCastable urest drest
end

/-- A host-language float: an opaque code for its numeric value (two
non-NaN floats carry the same code exactly when the host's == holds of
them, so the code stands for the ==-equivalence class) together with the
NaN flag.  The engine stores and reloads floats without computing with
them, but the host's == — the equality the round-trip claims are stated
in — is false on every NaN, including against itself. -/
structure PyFloat where
  code : Int
  isNan : Bool
deriving DecidableEq

/-- Modelled from the spec: the primitive wire value
(flytekit.models.literals.Primitive): a record of optional fields of which
the constructor populates exactly one; an accessor for an unpopulated field
yields None.  The float payload is a host float carried opaquely; the
datetime and duration payloads are likewise opaque. -/
structure Primitive where
  integer : Option Int
  float_value : Option PyFloat
  boolean : Option Bool
  string_value : Option String
  datetime : Option Int
  duration : Option Int
deriving DecidableEq

mutual
/-- Modelled from the spec: the scalar wire value: a variant over primitive,
blob reference, opaque struct, none, and union (inner value with its stored
wire type). -/
inductive Scalar where
  | primitive (p : Primitive)
  | blobRef (uri : String) (format : String)
  | generic (payload : Nat)
  | noneVal
  | union (value : Literal) (stored_type : LiteralType)
deriving DecidableEq

/-- Modelled from the spec: the wire value (flytekit.models.literals
Literal, aka WireValue): scalar, ordered collection or string-keyed map,
plus an optional content hash. -/
inductive Literal where
  | scalar (s : Scalar) (hash : Option String)
  | collection (items : LitList) (hash : Option String)
  | map (entries : LitMap) (hash : Option String)
deriving DecidableEq

/-- Ordered sequence of wire values (LiteralCollection). -/
inductive LitList where
  | nil
  | cons (head : Literal) (tail : LitList)
deriving DecidableEq

/-- String-keyed mapping of wire values (LiteralMap.literals). -/
inductive LitMap where
  | nil
  | cons (key : String) (value : Literal) (tail : LitMap)
deriving DecidableEq
end

/-- The accessor chain `lv.scalar.primitive`: none models both a missing
scalar and a missing primitive (in Python an AttributeError on a None
attribute, caught by SimpleTransformer.to_python_value). -/
def Literal.scalarPrimitive : Literal → Option Primitive
  | .scalar (.primitive p) _ => some p
  | _ => none

/-- `key in lv.map.literals` / `lv.map.literals[key]` lookup. -/
def LitMap.find : LitMap → String → Option Literal
  | .nil, _ => none
  | .cons k v t, key => if k = key then some v else t.find key

/-- Number of entries of a literal map (len(lm.literals)). -/
def LitMap.length : LitMap → Nat
  | .nil => 0
  | .cons _ _ t => 1 + t.length

/-- Native values of the simple built-in fragment of the host language.
Datetime and timedelta payloads are carried opaquely as integer codes;
float payloads carry their opaque numeric code together with the NaN flag,
so the host's non-reflexive-at-NaN == is representable. -/
inductive PyVal where
  | vNone
  | vInt (n : Int)
  | vFloat (f : PyFloat)
  | vBool (b : Bool)
  | vStr (s : String)
  | vDatetime (t : Int)
  | vTimedelta (d : Int)
deriving DecidableEq

/-- The native types owned by the built-in SimpleTransformers registered in
`_register_default_type_transformers` (type_engine.py lines 1128-1198). -/
inductive SimplePy where
  | int
  | float
  | bool
  | str
  | datetime
  | timedelta
  | noneType
deriving DecidableEq

/-- `type(python_val)`: the exact runtime type of a native value. -/
def runtimeType : PyVal → SimplePy
  | .vNone => .noneType
  | .vInt _ => .int
  | .vFloat _ => .float
  | .vBool _ => .bool
  | .vStr _ => .str
  | .vDatetime _ => .datetime
  | .vTimedelta _ => .timedelta

/-- `isinstance(v, t)` on the simple fragment: the runtime type matches, or
the value is a bool and the queried type is int (bool subclasses int in the
host language). -/
def pyIsInstance (v : PyVal) (t : SimplePy) : Bool :=
  runtimeType v == t || (runtimeType v == .bool && t == .int)

/-- The host language's `==` on the modelled native values, the equality
the round-trip properties are stated in.  On floats it is false whenever
either side is NaN — in particular it is not reflexive at NaN — and
otherwise compares the numeric codes; on the other constructors it is
structural equality of same-type values (the claims never compare values
of different runtime types, so numeric cross-type promotion is outside
this fragment). -/
def pyEq : PyVal → PyVal → Bool
  | .vFloat a, .vFloat b => !a.isNan && !b.isNan && a.code == b.code
  | x, y => x == y

/-- The value is a NaN float. -/
def isNanVal : PyVal → Bool
  | .vFloat f => f.isNan
  | _ => false

/-- The names of the built-in SimpleTransformers, as registered. -/
def simpleName : SimplePy → String
  | .int => "int"
  | .float => "float"
  | .bool => "bool"
  | .str => "str"
  | .datetime => "datetime"
  | .timedelta => "timedelta"
  | .noneType => "none"

/-- The LiteralType each built-in SimpleTransformer is registered with
(its `_lt`); `get_literal_type` returns a fresh copy of it, equal to it. -/
def simpleLT : SimplePy → LiteralType
  | .int => .simple .integer noDeco
  | .float => .simple .float noDeco
  | .bool => .simple .boolean noDeco
  | .str => .simple .string noDeco
  | .datetime => .simple .datetime noDeco
  | .timedelta => .simple .duration noDeco
  | .noneType => .simple .noneTy noDeco

/-- Errors of the conversion layer.  Every constructor models a
TypeTransformerFailedError raised by the source; the constructors only
record which check failed. -/
inductive TErr where
  | noneNotAllowed
  | assertTypeFailed
  | valueTypeMismatch
  | expectedTypeMismatch
  | resultTypeMismatch
  | conversionFailed
  | attributeMissing
  | missingConstructorArg (field : String)
  | notAMap
deriving DecidableEq

/-- Literal builders used by the registered `to_literal_transformer`
lambdas: Literal(scalar=Scalar(primitive=Primitive(<field>=x))). -/
def intLiteral (n : Int) : Literal :=
  .scalar (.primitive ⟨some n, none, none, none, none, none⟩) none

def floatLiteral (b : PyFloat) : Literal :=
  .scalar (.primitive ⟨none, some b, none, none, none, none⟩) none

def boolLiteral (b : Bool) : Literal :=
  .scalar (.primitive ⟨none, none, some b, none, none, none⟩) none

def strLiteral (s : String) : Literal :=
  .scalar (.primitive ⟨none, none, none, some s, none, none⟩) none

def datetimeLiteral (t : Int) : Literal :=
  .scalar (.primitive ⟨none, none, none, none, some t, none⟩) none

def timedeltaLiteral (d : Int) : Literal :=
  .scalar (.primitive ⟨none, none, none, none, none, some d⟩) none

def noneLiteral : Literal := .scalar .noneVal none

/-- The registered `to_literal_transformer` lambdas (lines 1128-1198),
applied after `SimpleTransformer.to_literal` has checked that the runtime
type of the value is exactly the transformer's type; the catch-all case is
unreachable under that guard. -/
def simpleToLiteralRaw : SimplePy → PyVal → Literal
  | .int, .vInt n => intLiteral n
  | .float, .vFloat b => floatLiteral b
  | .bool, .vBool b => boolLiteral b
  | .str, .vStr s => strLiteral s
  | .datetime, .vDatetime t => datetimeLiteral t
  | .timedelta, .vTimedelta d => timedeltaLiteral d
  | .noneType, _ => noneLiteral
  | _, _ => noneLiteral

/-- `SimpleTransformer.to_literal` (type_engine.py lines 165-168): fails
unless `type(python_val)` is exactly the transformer's registered type —
even a subclass is rejected — then applies the lambda. -/
def simpleToLiteral (t : SimplePy) (v : PyVal) : Except TErr Literal :=
  if runtimeType v = t then .ok (simpleToLiteralRaw t v)
  else .error .valueTypeMismatch

/-- Python `float(int)` as used by `_check_and_covert_float`: the float of
an integer, never NaN, coded by the integer's numeric value. -/
def floatOfInt (n : Int) : PyFloat := ⟨n, false⟩

/-- `_check_and_covert_float` (type_engine.py lines 1114-1119): the float
field if populated, else the converted integer field, else failure.  A
missing scalar or primitive (AttributeError in the source) is none. -/
def checkAndConvertFloat (lv : Literal) : Option PyVal :=
  match lv.scalarPrimitive with
  | none => none
  | some p =>
      match p.float_value with
      | some f => some (.vFloat f)
      | none =>
          match p.integer with
          | some n => some (.vFloat (floatOfInt n))
          | none => none

/-- `_check_and_convert_void` (type_engine.py lines 1122-1125): fails unless
the scalar is the none value. -/
def checkAndConvertVoid (lv : Literal) : Option PyVal :=
  match lv with
  | .scalar .noneVal _ => some .vNone
  | _ => none

/-- The registered `from_literal_transformer` lambdas: the accessor chains
`x.scalar.primitive.<field>` and the two checked converters.  none models
both an AttributeError (caught by SimpleTransformer.to_python_value) and a
None result (rejected by its result-type check). -/
def simpleFromLiteralRaw : SimplePy → Literal → Option PyVal
  | .int, lv => (lv.scalarPrimitive.bind Primitive.integer).map .vInt
  | .float, lv => checkAndConvertFloat lv
  | .bool, lv => (lv.scalarPrimitive.bind Primitive.boolean).map .vBool
  | .str, lv => (lv.scalarPrimitive.bind Primitive.string_value).map .vStr
  | .datetime, lv => (lv.scalarPrimitive.bind Primitive.datetime).map .vDatetime
  | .timedelta, lv => (lv.scalarPrimitive.bind Primitive.duration).map .vTimedelta
  | .noneType, lv => checkAndConvertVoid lv

/-- What callers may pass as the expected python type of a decode: an
actual type of the simple fragment, or the value None itself (which the
registry maps to the none transformer, because None was registered as an
additional key). -/
inductive PyTypeArg where
  | ty (t : SimplePy)
  | noneObj
deriving DecidableEq

/-- `SimpleTransformer.to_python_value` (type_engine.py lines 170-186) for
the transformer owning type `t`: the expected python type must equal the
transformer's type (the value None passed as a type never does), the lambda
is applied (an AttributeError becomes a failure), and the result's runtime
type must be exactly the transformer's type. -/
def simpleTransformerToPythonValue (t : SimplePy) (expected : PyTypeArg)
    (lv : Literal) : Except TErr PyVal :=
  if expected ≠ .ty t then .error .expectedTypeMismatch
  else
    match simpleFromLiteralRaw t lv with
    | some res =>
        if runtimeType res = t then .ok res else .error .resultTypeMismatch
    | none => .error .conversionFailed

/-- `TypeTransformer.assert_type` (type_engine.py lines 87-89): the default
assertion, which passes iff the value is a runtime instance of the type
(simple types carry no generic origin, so the instance check always runs). -/
def assertTypeDefault (t : SimplePy) (v : PyVal) : Except TErr Unit :=
  if pyIsInstance v t then .ok () else .error .assertTypeFailed

/-- `TypeEngine.to_literal` (type_engine.py lines 511-540) restricted to the
simple built-in fragment: a None value is rejected unless the expected wire
type is a union; the transformer is resolved (exact registry hit for these
types); assertions are enabled for SimpleTransformer, so assert_type runs;
no hash annotation is present on a plain simple type, so the hash field
stays unset. -/
def engineToLiteral (v : PyVal) (t : SimplePy) (expected : LiteralType) :
    Except TErr Literal :=
  if v = .vNone ∧ ¬ (isUnionLT expected = true) then .error .noneNotAllowed
  else
    match assertTypeDefault t v with
    | .error e => .error e
    | .ok _ => simpleToLiteral t v

/-- `TypeEngine.get_transformer` on the simple fragment: an exact registry
hit for a type of the fragment; the value None is a registry key mapping to
the none transformer (registered with additional_types=[None]). -/
def miniGetTransformer : PyTypeArg → SimplePy
  | .ty t => t
  | .noneObj => .noneType

/-- `TypeEngine.to_python_value` (type_engine.py lines 542-548) restricted
to the simple built-in fragment: resolve the transformer for the expected
python type and delegate to it. -/
def engineToPythonValue (lv : Literal) (expected : PyTypeArg) :
    Except TErr PyVal :=
  simpleTransformerToPythonValue (miniGetTransformer expected) expected lv

/-- `TypeEngine.to_literal_type` restricted to the simple fragment: the
transformer's literal type (no annotation payload on a plain type). -/
def toLiteralTypeSimple (t : SimplePy) : LiteralType := simpleLT t

/-- Errors of the union transformer loops.  `ambiguous` models the plain
TypeError raised on a second successful variant (not caught by the loops'
except clauses); `cannotConvert` models the failure raised after the loop
when no variant succeeded. -/
inductive UErr where
  | ambiguous
  | cannotConvert
deriving DecidableEq

/-- One declared variant as seen by `UnionTransformer.to_literal`: the
variant transformer's name, the outcome of `trans.to_literal(ctx,
python_val, t, expected)` and the outcome of `trans.get_literal_type(t)`.
none models an exception of the caught classes (TypeTransformerFailedError,
AttributeError, ValueError, AssertionError), which makes the loop skip to
the next variant. -/
structure UnionEncodeAttempt where
  name : String
  encode : Option Literal
  litType : Option LiteralType
deriving DecidableEq

/-- An attempt succeeds when both its encode and its literal-type
computation succeed. -/
def attemptOk (a : UnionEncodeAttempt) : Bool :=
  a.encode.isSome && a.litType.isSome

/-- The variant loop of `UnionTransformer.to_literal` (type_engine.py lines
829-844), carrying the loop state (found_res, res, res_type) as an optional
pair (the pair is present exactly when found_res is set; a res assigned
while found_res is still false is dead, since it is either overwritten by
the full success that sets found_res or discarded by the final failure).
The source assigns res from `trans.to_literal` BEFORE `trans.
get_literal_type` runs, so a variant whose encode succeeds while its
literal-type computation raises a caught exception reassigns only res —
clobbering a previously found value while keeping the earlier res_type —
and the loop continues without setting found_res; when both succeed, an
already-set found_res raises the ambiguity error, else res and the tagged
res_type are recorded together. -/
def unionToLiteralLoop :
    List UnionEncodeAttempt → Option (Literal × LiteralType) →
    Except UErr (Literal × LiteralType)
  | [], none => .error .cannotConvert
  | [], some rt => .ok rt
  | a :: rest, acc =>
      match a.encode with
      | none => unionToLiteralLoop rest acc
      | some res =>
          match a.litType with
          | none => unionToLiteralLoop rest (acc.map (fun p => (res, p.2)))
          | some lt =>
              if acc.isSome then .error .ambiguous
              else unionToLiteralLoop rest (some (res, addTagToType lt a.name))

/-- `UnionTransformer.to_literal` (type_engine.py lines 825-849): run the
variant loop and wrap the winning result in a union scalar carrying the
tagged stored type; fail when no variant succeeded. -/
def unionToLiteral (attempts : List UnionEncodeAttempt) : Except UErr Literal :=
  match unionToLiteralLoop attempts none with
  | .ok (res, resType) => .ok (.scalar (.union res resType) none)
  | .error e => .error e

/-- One declared variant as seen by `UnionTransformer.to_python_value`: the
variant transformer's name, whether the variant native type is a dataclass,
its literal type (`TypeEngine.to_literal_type(v)`), and the outcome of
`trans.to_python_value` on a given literal (none models an exception of the
caught classes TypeTransformerFailedError and AttributeError). -/
structure UnionDecodeVariant where
  name : String
  isDataclass : Bool
  litType : LiteralType
  decode : Literal → Option PyVal

/-- The stored type and inner value of a union scalar literal. -/
def unionStoredInfo : Literal → Option (LiteralType × Literal)
  | .scalar (.union value stored) _ => some (stored, value)
  | _ => none

/-- The tagged variant loop of `UnionTransformer.to_python_value`
(type_engine.py lines 865-886): a variant whose transformer name differs
from the stored tag is skipped unless it is a dataclass; a variant whose
literal type the stored type is not castable to is skipped; the surviving
variants decode the inner union value, a caught exception skips, a second
success raises the ambiguity error. -/
def taggedLoop (tg : String) (stored : LiteralType) (inner : Literal) :
    List UnionDecodeVariant → Option PyVal → Except UErr PyVal
  | [], none => .error .cannotConvert
  | [], some r => .ok r
  | v :: rest, acc =>
      if v.name ≠ tg ∧ v.isDataclass = false then
        taggedLoop tg stored inner rest acc
      else if areTypesCastable stored v.litType = false then
        taggedLoop tg stored inner rest acc
      else
        match v.decode inner with
        | none => taggedLoop tg stored inner rest acc
        | some r =>
            if acc.isSome then .error .ambiguous
            else taggedLoop tg stored inner rest (some r)

/-- The untagged variant loop of `UnionTransformer.to_python_value`
(type_engine.py lines 887-895): every variant attempts to decode the whole
literal; a caught exception skips; a second success raises the ambiguity
error. -/
def untaggedLoop (lv : Literal) :
    List UnionDecodeVariant → Option PyVal → Except UErr PyVal
  | [], none => .error .cannotConvert
  | [], some r => .ok r
  | v :: rest, acc =>
      match v.decode lv with
      | none => untaggedLoop lv rest acc
      | some r =>
          if acc.isSome then .error .ambiguous
          else untaggedLoop lv rest (some r)

/-- `UnionTransformer.to_python_value` (type_engine.py lines 851-902): when
the literal is a union scalar whose stored type carries a structure tag,
run the tagged loop on the inner value; otherwise run the untagged loop on
the whole literal. -/
def unionToPythonValue (variants : List UnionDecodeVariant) (lv : Literal) :
    Except UErr PyVal :=
  match unionStoredInfo lv with
  | some (stored, inner) =>
      match stored.deco.tag with
      | some tg => taggedLoop tg stored inner variants none
      | none => untaggedLoop lv variants none
  | none => untaggedLoop lv variants none

/-- Except-to-Option collapse for building attempt records from the simple
transformers (a raised caught exception becomes none). -/
def exceptToOption {α : Type} (e : Except TErr α) : Option α :=
  match e with
  | .ok a => some a
  | .error _ => none

/-- The encode attempt a declared simple variant contributes to
`UnionTransformer.to_literal` for a given value: `trans.to_literal` is
`SimpleTransformer.to_literal` (called directly, without the engine-level
assertion) and `trans.get_literal_type` always succeeds for simple types. -/
def mkSimpleEncodeAttempt (t : SimplePy) (v : PyVal) : UnionEncodeAttempt :=
  ⟨simpleName t, exceptToOption (simpleToLiteral t v), some (simpleLT t)⟩

/-- The decode variant a declared simple native type contributes to
`UnionTransformer.to_python_value`: simple types are not dataclasses, their
literal type is their registered one, and decoding delegates to
`SimpleTransformer.to_python_value` with the variant as expected type. -/
def mkSimpleDecodeVariant (t : SimplePy) : UnionDecodeVariant :=
  ⟨simpleName t, false, simpleLT t,
    fun l => exceptToOption (simpleTransformerToPythonValue t (.ty t) l)⟩

/-- A declared field of a record (dataclass) type: its name, its type
(restricted to the simple fragment for this development) and its optional
declared default value. -/
structure RecField where
  name : String
  ftype : SimplePy
  dflt : Option PyVal
deriving DecidableEq

/-- Association-list lookup (first hit), modelling Python dict/getattr
lookups keyed by strings. -/
def alookup {α : Type} : List (String × α) → String → Option α
  | [], _ => none
  | (k, a) :: rest, key => if k = key then some a else alookup rest key

/-- The encode walk of `DataclassTransformer.to_literal` (type_engine.py
lines 250-262): for each declared field in declaration order, read the
attribute from the instance and encode it with the field's transformer
(for simple field types the expected subtype parsed from the metadata is
ignored by the simple lambdas).  A record instance is an assignment of
values to the field names; a missing attribute cannot happen for a
well-formed instance. -/
def dataclassFieldsToLitMap :
    List RecField → List (String × PyVal) → Except TErr LitMap
  | [], _ => .ok .nil
  | f :: rest, v =>
      match alookup v f.name with
      | none => .error .attributeMissing
      | some fv =>
          match simpleToLiteral f.ftype fv with
          | .error e => .error e
          | .ok lit =>
              match dataclassFieldsToLitMap rest v with
              | .error e => .error e
              | .ok m => .ok (.cons f.name lit m)

/-- `DataclassTransformer.to_literal`: the field walk wrapped in a map
literal. -/
def dataclassToLiteral (rt : List RecField) (v : List (String × PyVal)) :
    Except TErr Literal :=
  match dataclassFieldsToLitMap rt v with
  | .error e => .error e
  | .ok m => .ok (.map m none)

/-- The decode walk of `DataclassTransformer.to_python_value` (type_engine
lines 264-272): for each declared field, decode its wire value only when
the field name is present in the wire map — an absent field is silently
skipped, not an error. -/
def dataclassDecodeFields :
    List RecField → LitMap → Except TErr (List (String × PyVal))
  | [], _ => .ok []
  | f :: rest, entries =>
      match LitMap.find entries f.name with
      | some lit =>
          match simpleTransformerToPythonValue f.ftype (.ty f.ftype) lit with
          | .error e => .error e
          | .ok fv =>
              match dataclassDecodeFields rest entries with
              | .error e => .error e
              | .ok l => .ok ((f.name, fv) :: l)
      | none => dataclassDecodeFields rest entries

/-- The record constructor call `expected_python_type(**fields)`: each
declared field takes the decoded keyword value when present, else its
declared default, and the construction fails (a TypeError in the host
language) when a field has neither. -/
def dataclassConstruct :
    List RecField → List (String × PyVal) → Except TErr (List (String × PyVal))
  | [], _ => .ok []
  | f :: rest, kwargs =>
      match alookup kwargs f.name with
      | some fv =>
          match dataclassConstruct rest kwargs with
          | .error e => .error e
          | .ok l => .ok ((f.name, fv) :: l)
      | none =>
          match f.dflt with
          | some dv =>
              match dataclassConstruct rest kwargs with
              | .error e => .error e
              | .ok l => .ok ((f.name, dv) :: l)
          | none => .error (.missingConstructorArg f.name)

/-- `DataclassTransformer.to_python_value`: read `lv.map.literals` (a
non-map literal raises an AttributeError), run the decode walk, and call
the record constructor with the decoded fields. -/
def dataclassToPythonValue (rt : List RecField) (lv : Literal) :
    Except TErr (List (String × PyVal)) :=
  match lv with
  | .map entries _ =>
      match dataclassDecodeFields rt entries with
      | .error e => .error e
      | .ok fields => dataclassConstruct rt fields
  | _ => .error .notAMap

mutual
/-- The native-type universe seen by `TypeEngine.get_transformer`: the
built-in registered types, the value None registered as an extra key, the
restricted types, parameterized generics (which expose an origin and a
type argument), Annotated wrappers, dataclass types carrying their
declared field types in declaration order (`dataclasses.fields`), and
plain classes with at most one declared base (single inheritance suffices
for every registered built-in base). -/
inductive PyType where
  | int
  | float
  | bool
  | str
  | datetime
  | timedelta
  | noneType
  | noneKey
  | list
  | dict
  | unionTy
  | textIOTy
  | binaryIOTy
  | enumBase
  | message
  | tuplePy
  | typingTuple
  | namedTuple
  | generic (origin : PyType) (arg : PyType)
  | annotated (base : PyType)
  | dataclassTy (nm : String) (fields : PTList)
  | classNoBase (nm : String)
  | classWithBase (nm : String) (base : PyType)
deriving DecidableEq

/-- Ordered sequence of native types (a dataclass's declared field
types). -/
inductive PTList where
  | nil
  | cons (head : PyType) (tail : PTList)
deriving DecidableEq
end

/-- The transformers held by the registry, identified by enough structure
to distinguish the outcomes of a dispatch. -/
inductive Transformer where
  | simpleTr (name : String)
  | listTr
  | unionTr
  | dictTr
  | textIOTr
  | binaryIOTr
  | enumTr
  | protobufTr
  | restrictedTr (name : String)
  | dataclassTr (typeName : String)
  | pickleTr (t : PyType)
deriving DecidableEq

/-- The registry: an insertion-ordered mapping from native type to
transformer (`TypeEngine._REGISTRY`). -/
abbrev Registry := List (PyType × Transformer)

/-- Registry lookup (`python_type in cls._REGISTRY` followed by
indexing). -/
def regLookup : Registry → PyType → Option Transformer
  | [], _ => none
  | (k, tr) :: rest, t => if k = t then some tr else regLookup rest t

/-- Registry insertion of a new key (`cls._REGISTRY[python_type] = ...`):
the key is appended in insertion order. -/
def regInsert (reg : Registry) (t : PyType) (tr : Transformer) : Registry :=
  reg ++ [(t, tr)]

/-- The registry as populated by `_register_default_type_transformers`
(type_engine.py lines 1128-1215), in registration order: the seven simple
transformers (None registered as an additional key of the none
transformer), list, union, dict, TextIO, BinaryIO, enum and protobuf
transformers, then the restricted tuple, typing.Tuple and NamedTuple
entries. -/
def defaultRegistry : Registry :=
  [(.int, .simpleTr "int"), (.float, .simpleTr "float"),
   (.bool, .simpleTr "bool"), (.str, .simpleTr "str"),
   (.datetime, .simpleTr "datetime"), (.timedelta, .simpleTr "timedelta"),
   (.noneType, .simpleTr "none"), (.noneKey, .simpleTr "none"),
   (.list, .listTr), (.unionTy, .unionTr), (.dict, .dictTr),
   (.textIOTy, .textIOTr), (.binaryIOTy, .binaryIOTr), (.enumBase, .enumTr),
   (.message, .protobufTr), (.tuplePy, .restrictedTr "non typed tuple"),
   (.typingTuple, .restrictedTr "non typed tuple"),
   (.namedTuple, .restrictedTr "named tuple")]

/-- `issubclass(sub, base)` on the modelled class universe: reflexivity, or
a walk up the declared base chain. -/
def isSubclassOf : PyType → PyType → Bool
  | s, base =>
      if s = base then true
      else
        match s with
        | .classWithBase _ b => isSubclassOf b base
        | _ => false

/-- The inheritance scan of step 4 of `get_transformer` (type_engine.py
lines 466-480): walk the registry in insertion order; the None key is
skipped explicitly, the NamedTuple key raises a TypeError inside isinstance
which is caught and skipped; the first base class the queried type is a
subclass of wins. -/
def findInheritance : Registry → PyType → Option Transformer
  | [], _ => none
  | (k, tr) :: rest, t =>
      if k = .noneKey then findInheritance rest t
      else if k = .namedTuple then findInheritance rest t
      else if isSubclassOf t k then some tr
      else findInheritance rest t

/-- The failure of step 2 of `get_transformer`: a parameterized generic
whose origin is not registered (`Generic Type ... not supported currently
in Flytekit`). -/
inductive GTErr where
  | unsupportedGeneric (origin : PyType)
deriving DecidableEq

/-- Steps 4 and 5 of `TypeEngine.get_transformer`: the inheritance scan,
falling back to lazy registration of the pickle transformer for the queried
type. -/
def inheritanceOrPickle (reg : Registry) (t : PyType) :
    Except GTErr (Transformer × Registry) :=
  match findInheritance reg t with
  | some tr => .ok (tr, reg)
  | none => .ok (.pickleTr t, regInsert reg t (.pickleTr t))

/-- Case analysis on an optional registry hit, hit case first (mirroring
`if python_type in cls._REGISTRY: return cls._REGISTRY[python_type]`). -/
def optElim {α β : Type} (o : Option α) (f : α → β) (e : β) : β :=
  match o with
  | some a => f a
  | none => e

mutual
/-- Steps 1 to 5 of `TypeEngine.get_transformer` (type_engine.py lines
438-486) applied to a type already stripped of its outer Annotated wrapper:
exact registry hit; for generics, an origin hit or the unsupported-generic
failure; for dataclasses, lazy construction of a dataclass transformer —
whose constructor (DataclassTransformer.__init__, lines 218-222) eagerly
dispatches every declared field type through the registry, propagating any
failure and threading any registrations the field dispatches perform —
followed by its registration; then the inheritance scan and the pickle
fallback.  Only non-Annotated types reach this function. -/
def afterLookup (reg : Registry) (t : PyType) :
    Except GTErr (Transformer × Registry) :=
  optElim (regLookup reg t) (fun tr => .ok (tr, reg))
    (match t with
     | .generic origin _ =>
         match regLookup reg origin with
         | some tr => .ok (tr, reg)
         | none => .error (.unsupportedGeneric origin)
     | .dataclassTy n fs =>
         match dispatchFields reg fs with
         | .error e => .error e
         | .ok reg2 =>
             .ok (.dataclassTr n,
               regInsert reg2 (.dataclassTy n fs) (.dataclassTr n))
     | t2 => inheritanceOrPickle reg t2)
termination_by (sizeOf t, 0)

/-- The field walk of `DataclassTransformer.__init__` (type_engine.py lines
220-222): each declared field type is dispatched through
`TypeEngine.get_transformer` in declaration order; a failure propagates and
registrations performed by the field dispatches are threaded through. -/
def dispatchFields (reg : Registry) : PTList → Except GTErr Registry
  | .nil => .ok reg
  | .cons f rest =>
      match getTransformer reg f with
      | .error e => .error e
      | .ok (_, reg2) => dispatchFields reg2 rest
termination_by fs => (sizeOf fs, 1)

/-- `TypeEngine.get_transformer` (type_engine.py lines 414-486): step 1
strips one outer Annotated wrapper and tries an exact registry hit; a type
that is still Annotated after the strip recurses on its base (step 2's
Annotated handling); everything else proceeds through steps 2 to 5.
Returns the transformer together with the possibly-grown registry. -/
def getTransformer (reg : Registry) : PyType → Except GTErr (Transformer × Registry)
  | .annotated (.annotated c) =>
      match regLookup reg (.annotated c) with
      | some tr => .ok (tr, reg)
      | none => getTransformer reg c
  | .annotated b => afterLookup reg b
  | t => afterLookup reg t
termination_by t => (sizeOf t, 1)
end

/-- Types eligible for tiers 4 and 5 of the dispatch: not Annotated, not a
parameterized generic, not a dataclass type. -/
def isPlainForDispatch : PyType → Bool
  | .annotated _ => false
  | .generic _ _ => false
  | .dataclassTy _ _ => false
  | _ => true

mutual
/-- No parameterized generic occurs where the dispatch can reach one: in
the Annotated-unwrapping chain or among a dataclass's declared field types,
recursively. -/
def genericFree : PyType → Bool
  | .generic _ _ => false
  | .annotated b => genericFree b
  | .dataclassTy _ fs => genericFreeList fs
  | _ => true

/-- Every field type of the list is free of parameterized generics. -/
def genericFreeList : PTList → Bool
  | .nil => true
  | .cons f rest => genericFree f && genericFreeList rest
end

/-- The declared wire types this development admits in a resolver's
variable map: the seven wire types owned by the built-in
SimpleTransformers, and enum wire types.  The remaining wire shapes engage
machinery outside this fragment's engine (the struct kind is claimed by
DictTransformer or ProtobufTransformer depending on its metadata payload,
collections, maps and unions recurse through their container transformers,
and a blob is claimed by a pickle transformer only if one was registered),
so they are excluded from the fragment rather than modelled. -/
inductive VarWire where
  | intW
  | floatW
  | boolW
  | strW
  | datetimeW
  | timedeltaW
  | noneW
  | enumW (values : List String)
deriving DecidableEq

/-- `TypeEngine.guess_python_type` (type_engine.py lines 634-645) on the
variable-map fragment: the registered transformers are tried in
registration order and the first whose `guess_python_type` does not raise
ValueError wins.  On a wire type of a simple non-struct kind exactly one of
the seven SimpleTransformers claims it — the one whose registered literal
type has the same simple kind (line 189) — and every other registered
transformer raises: the collection_type, union_type and map_value_type
accessors are None, the simple kind is not STRUCT (excluding the dict and
protobuf claims), and the TextIO, BinaryIO, Enum and restricted-type
transformers inherit the always-raising default guess (lines 98-102).  On
an enum wire type every registered transformer raises — in particular
EnumTransformer does not override guess_python_type — so the loop falls
through to the final ValueError of line 645, modelled as none. -/
def guessVarWire : VarWire → Option SimplePy
  | .intW => some .int
  | .floatW => some .float
  | .boolW => some .bool
  | .strW => some .str
  | .datetimeW => some .datetime
  | .timedeltaW => some .timedelta
  | .noneW => some .noneType
  | .enumW _ => none

/-- `LiteralsResolver` state (type_engine.py lines 1218-1247): the
immutable backing map of wire values, the optional variable map (each
variable reduced to its declared wire type), the mutable cache of decoded
native values, and the mutable explicit type hints. -/
structure Resolver where
  literals : List (String × Literal)
  variableMap : Option (List (String × VarWire))
  nativeValues : List (String × PyVal)
  typeHints : List (String × SimplePy)

/-- Failures of `LiteralsResolver.get`: the key missing from the backing
map (an AttributeError in the source), a re-raised guess failure, or a
failure inside the engine decode. -/
inductive ResolverErr where
  | attrNotFound (key : String)
  | guessFailed (key : String)
  | conversion (e : TErr)
deriving DecidableEq

/-- The expected-type argument handed to the engine decode: the resolved
type when one was found, or the value None itself when every tier was
skipped (the source's un-raised ValueError path). -/
def pyTypeArgOf : Option SimplePy → PyTypeArg
  | some t => .ty t
  | none => .noneObj

/-- The as_type resolution block of `LiteralsResolver.get` (type_engine.py
lines 1314-1325), translated faithfully including the source's un-raised
ValueError: the explicit as_type wins, else a registered hint for the key,
else — when a truthy (non-empty) variable map was supplied and contains the
key — the guessed type, a guess failure being re-raised; when none of the
tiers applies the source merely constructs a ValueError without raising it,
leaving as_type None. -/
def resolveAsType (r : Resolver) (attr : String) (asType : Option SimplePy) :
    Except ResolverErr (Option SimplePy) :=
  match asType with
  | some t => .ok (some t)
  | none =>
      match alookup r.typeHints attr with
      | some t => .ok (some t)
      | none =>
          match (match r.variableMap with
                 | none => none
                 | some vm => if vm.isEmpty then none else alookup vm attr) with
          | some lt =>
              match guessVarWire lt with
              | some t => .ok (some t)
              | none => .error (.guessFailed attr)
          | none => .ok none

/-- `LiteralsResolver.get` (type_engine.py lines 1299-1330): the key must be
in the backing map; a cached value is returned as-is; otherwise the type to
decode into is resolved (possibly remaining None because of the un-raised
ValueError) and the engine decodes; a successful decode is appended to the
cache.  The returned number counts the engine decode invocations this call
performed. -/
def resolverGet (r : Resolver) (attr : String) (asType : Option SimplePy) :
    Except ResolverErr (PyVal × Resolver × Nat) :=
  match alookup r.literals attr with
  | none => .error (.attrNotFound attr)
  | some lit =>
      match alookup r.nativeValues attr with
      | some v => .ok (v, r, 0)
      | none =>
          match resolveAsType r attr asType with
          | .error e => .error e
          | .ok resolved =>
              match engineToPythonValue lit (pyTypeArgOf resolved) with
              | .error e => .error (.conversion e)
              | .ok val =>
                  .ok (val,
                    Resolver.mk r.literals r.variableMap
                      (r.nativeValues ++ [(attr, val)]) r.typeHints, 1)

/-- `LiteralsResolver.__getitem__` (type_engine.py lines 1288-1297): the
key must be in the backing map; a cached value is returned without any
decode; otherwise delegate to `get` with no explicit type. -/
def resolverGetItem (r : Resolver) (key : String) :
    Except ResolverErr (PyVal × Resolver × Nat) :=
  match alookup r.literals key with
  | none => .error (.attrNotFound key)
  | some _ =>
      match alookup r.nativeValues key with
      | some v => .ok (v, r, 0)
      | none => resolverGet r key none

/-- Upstream types that fall through the shape rules of
`_are_types_castable` to the downstream-union rule and the final checks:
those that are not collections, maps, structured datasets or unions. -/
def reachesUnionRule : LiteralType → Bool
  | .simple _ _ => true
  | .enumType _ _ => true
  | .blob _ _ _ => true
  | _ => false

/-- A variant of the tagged union-decode loop that contributes no result:
it is skipped by the tag/dataclass test, skipped by the castability test,
or its decode of the inner value raises a caught exception. -/
def taggedNoResult (tg : String) (stored : LiteralType) (inner : Literal)
    (v : UnionDecodeVariant) : Bool :=
  (decide (v.name ≠ tg) && !v.isDataclass) ||
    !(areTypesCastable stored v.litType) || (v.decode inner).isNone

/-- A variant of the tagged union-decode loop that survives the
tag/dataclass gate and the castability gate and whose decode of the inner
value succeeds. -/
def taggedSuccess (tg : String) (stored : LiteralType) (inner : Literal)
    (v : UnionDecodeVariant) : Bool :=
  (v.name == tg || v.isDataclass) && areTypesCastable stored v.litType
    && (v.decode inner).isSome

/-- The literal carries no stored union tag: it is not a union scalar, or
its stored type's structure tag is absent (both run the untagged loop). -/
def noStoredTag (lv : Literal) : Bool :=
  match unionStoredInfo lv with
  | some (stored, _) => (stored.deco.tag).isNone
  | none => true

/-- The record type of the spec's example: fields a (int) and b (str),
neither with a declared default. -/
def rtAB : List RecField := [⟨"a", .int, none⟩, ⟨"b", .str, none⟩]

/-- The same record shape with a declared default for field b. -/
def rtABdef : List RecField := [⟨"a", .int, none⟩, ⟨"b", .str, some (.vStr "fallback")⟩]

/-- The wire map carrying both fields of the example record. -/
def abMap (x : Int) (s : String) : Literal :=
  .map (.cons "a" (intLiteral x) (.cons "b" (strLiteral s) .nil)) none

/-- The wire map missing field b. -/
def aOnlyMap (x : Int) : Literal :=
  .map (.cons "a" (intLiteral x) .nil) none

/-- A collection-of-integer wire type. -/
def collIntLT : LiteralType := .collection (.simple .integer noDeco) noDeco

/-- A stored union type whose essence is string but whose structure tag
names the int transformer. -/
def storedStrTaggedInt : LiteralType := .simple .string ⟨none, some "int", none⟩

/-- A union scalar literal holding an integer value under the mismatched
stored type above. -/
def lvStrTaggedInt : Literal := .scalar (.union (intLiteral 7) storedStrTaggedInt) none

/-- A resolver holding one string wire value, with no variable map, no
cached values and no type hints. -/
def resolverNoVarMap : Resolver := ⟨[("x", strLiteral "hi")], none, [], []⟩

/-- A resolver holding one string wire value whose variable map declares an
enum wire type — a wire type no registered transformer's guess claims. -/
def resolverEnumVar : Resolver :=
  ⟨[("x", strLiteral "hi")], some [("x", .enumW ["A", "B"])], [], []⟩

/-- The resolver state after the first successful decode of key x. -/
def resolverAfterGet : Resolver := ⟨[("x", strLiteral "hi")], none, [("x", .vStr "hi")], []⟩

/-- A NaN float (its numeric code is irrelevant). -/
def nanFloat : PyFloat := ⟨0, true⟩

/-- C1 counterexample: at the NaN float the round-trip through the engine
returns the NaN unchanged, but the host's == — the equality the claim is
stated in — is false between NaN and itself, so the claimed round-trip
equality to_python_value(to_literal(v, float, ...), float) == v fails at a
value whose runtime type is exactly float. -/
theorem c1_nan_roundtrip_counterexample :
    (engineToLiteral (.vFloat nanFloat) .float (toLiteralTypeSimple .float)).bind
      (fun lv => engineToPythonValue lv (.ty .float)) = .ok (.vFloat nanFloat)
    ∧ pyEq (.vFloat nanFloat) (.vFloat nanFloat) = false := by
  refine ⟨rfl, rfl⟩

/-- C1 (amended): for every built-in simple scalar type T in {int, float,
bool, str, datetime, timedelta} and every value v whose runtime type is
exactly T and which is not a NaN float, decoding the encoding returns v
itself, and v == v holds, so the round-trip is ==-preserving away from NaN
(at a NaN float the round-trip still returns the NaN, but == fails). -/
theorem c1_simple_roundtrip (t : SimplePy) (v : PyVal)
    (ht : t ≠ SimplePy.noneType) (hv : runtimeType v = t)
    (hnan : isNanVal v = false) :
    (engineToLiteral v t (toLiteralTypeSimple t)).bind
      (fun lv => engineToPythonValue lv (.ty t)) = .ok v
    ∧ pyEq v v = true := by
  subst hv
  cases v with
  | vNone => exact absurd rfl ht
  | vInt n => exact ⟨rfl, by simp [pyEq]⟩
  | vFloat f =>
      obtain ⟨c, nan⟩ := f
      cases nan with
      | false => exact ⟨rfl, by simp [pyEq]⟩
      | true => simp [isNanVal] at hnan
  | vBool b => cases b <;> exact ⟨rfl, by simp [pyEq]⟩
  | vStr s => exact ⟨rfl, by simp [pyEq]⟩
  | vDatetime t => exact ⟨rfl, by simp [pyEq]⟩
  | vTimedelta d => exact ⟨rfl, by simp [pyEq]⟩

/-- Witness for C1 (amended) at T = int, v = 7. -/
theorem c1_simple_roundtrip_witness :
    ((engineToLiteral (.vInt 7) .int (toLiteralTypeSimple .int)).bind
      (fun lv => engineToPythonValue lv (.ty .int)) = .ok (.vInt 7))
    ∧ pyEq (.vInt 7) (.vInt 7) = true :=
  c1_simple_roundtrip .int (.vInt 7) (by decide) rfl rfl

/-- C10: for every registered SimpleTransformer, to_literal fails with
TypeTransformerFailedError whenever the runtime type of the value is not
exactly the transformer's registered type — subclasses included; in
particular TypeEngine.to_literal with python_type=int fails on True at the
transformer's exact-type check although bool subclasses int and the
engine's default assert_type instance check accepts the value. -/
theorem c10_exact_type_check_rejects_subclasses :
    (∀ (t : SimplePy) (v : PyVal), runtimeType v ≠ t →
      simpleToLiteral t v = .error .valueTypeMismatch)
    ∧ engineToLiteral (.vBool true) .int (toLiteralTypeSimple .int)
        = .error .valueTypeMismatch
    ∧ assertTypeDefault .int (.vBool true) = .ok ()
    ∧ pyIsInstance (.vBool true) .int = true := by
  refine ⟨?_, rfl, rfl, rfl⟩
  intro t v h
  simp [simpleToLiteral, h]

/-- Witness for C10 at the bool-for-int instance: True's runtime type bool
differs from int, and the int transformer's to_literal rejects it. -/
theorem c10_exact_type_check_rejects_subclasses_witness :
    runtimeType (.vBool true) ≠ SimplePy.int
    ∧ simpleToLiteral .int (.vBool true) = .error .valueTypeMismatch :=
  ⟨by decide,
    c10_exact_type_check_rejects_subclasses.1 .int (.vBool true) (by decide)⟩

/-- Rule 4 of the castability checker as an equation: an upstream union
reduces to the all-variants loop, whatever the downstream is. -/
theorem castable_union_up (vs : LTList) (d : Deco) (dn : LiteralType) :
    areTypesCastable (.unionType vs d) dn = allCastableTo vs dn := by
  cases dn <;> simp [areTypesCastable]

/-- Rule 5 of the castability checker as an equation, for upstream types
that fall through the shape rules: a downstream union reduces to the
some-variant loop followed by the final checks. -/
theorem castable_union_dn (up : LiteralType) (ws : LTList) (d : Deco)
    (h : reachesUnionRule up = true) :
    areTypesCastable up (.unionType ws d)
      = (someCastableFrom up ws || castFinal up (.unionType ws d)) := by
  cases up <;> simp_all [areTypesCastable, reachesUnionRule]

/-- The final checks never accept a downstream union for an upstream that
fell through the shape rules: such an upstream is not an enum-to-string
match (a union is not the string simple type) and its essence keeps its
own variant constructor, never equal to a union's essence. -/
theorem castFinal_union_dn_false (up : LiteralType) (ws : LTList) (d : Deco)
    (h : reachesUnionRule up = true) :
    castFinal up (.unionType ws d) = false := by
  cases up <;> simp_all [castFinal, isEnumLT, isStringSimple, typeEssence, reachesUnionRule]

/-- The all-variants loop is the universal quantification over the variant
list. -/
theorem allCastableTo_iff (vs : LTList) (dn : LiteralType) :
    allCastableTo vs dn = true ↔ ∀ v ∈ vs.toList, areTypesCastable v dn = true := by
  cases vs with
  | nil => simp [allCastableTo, LTList.toList]
  | cons h t =>
      have ih := allCastableTo_iff t dn
      simp [allCastableTo, LTList.toList, ih]

/-- The some-variant loop is the existential quantification over the
variant list. -/
theorem someCastableFrom_iff (up : LiteralType) (ws : LTList) :
    someCastableFrom up ws = true ↔ ∃ w ∈ ws.toList, areTypesCastable up w = true := by
  cases ws with
  | nil => simp [someCastableFrom, LTList.toList]
  | cons h t =>
      have ih := someCastableFrom_iff up t
      simp [someCastableFrom, LTList.toList, ih]

/-- C5 counterexample: a collection-of-integer upstream against a
downstream union whose single variant is that very collection type is not
castable (the collection shape rule fires first and rejects the non-
collection downstream), although the downstream variant accepts the
upstream — refuting the claim that every non-union upstream is castable to
a downstream union iff at least one variant accepts it. -/
theorem c5_collection_vs_union_counterexample :
    areTypesCastable collIntLT (.unionType (.cons collIntLT .nil) noDeco) = false
    ∧ areTypesCastable collIntLT collIntLT = true := by
  constructor
  · simp [areTypesCastable, collIntLT]
  · simp [areTypesCastable, collIntLT, castFinal, typeEssence, isEnumLT, isStringSimple]

/-- C5 (amended): an upstream union is castable iff every variant is
castable to the downstream; an upstream that reaches the union-downstream
rule (one that is not itself a collection, map, structured dataset or
union) is castable to a downstream union iff at least one downstream
variant accepts it; in particular union-of[INTEGER, STRING] is not castable
to INTEGER while INTEGER is castable to union-of[INTEGER, STRING]. -/
theorem c5_union_castability_directional :
    (∀ (vs : LTList) (d : Deco) (dn : LiteralType),
        areTypesCastable (.unionType vs d) dn = true
          ↔ ∀ v ∈ vs.toList, areTypesCastable v dn = true)
    ∧ (∀ (up : LiteralType) (ws : LTList) (d : Deco),
        reachesUnionRule up = true →
          (areTypesCastable up (.unionType ws d) = true
            ↔ ∃ w ∈ ws.toList, areTypesCastable up w = true))
    ∧ areTypesCastable
        (.unionType (.cons (.simple .integer noDeco)
          (.cons (.simple .string noDeco) .nil)) noDeco)
        (.simple .integer noDeco) = false
    ∧ areTypesCastable (.simple .integer noDeco)
        (.unionType (.cons (.simple .integer noDeco)
          (.cons (.simple .string noDeco) .nil)) noDeco) = true := by
  refine ⟨?_, ?_, ?_, ?_⟩
  · intro vs d dn
    rw [castable_union_up]
    exact allCastableTo_iff vs dn
  · intro up ws d h
    rw [castable_union_dn up ws d h, castFinal_union_dn_false up ws d h]
    simp [someCastableFrom_iff]
  · simp [areTypesCastable, allCastableTo, castFinal, typeEssence, isEnumLT, isStringSimple]
  · simp [areTypesCastable, someCastableFrom, castFinal, typeEssence, isEnumLT, isStringSimple]

/-- Witness for C5 at a concrete upstream and variant list. -/
theorem c5_union_castability_directional_witness :
    areTypesCastable (.simple .boolean noDeco)
        (.unionType (.cons (.simple .boolean noDeco) .nil) noDeco) = true
      ↔ ∃ w ∈ (LTList.cons (.simple .boolean noDeco) .nil).toList,
          areTypesCastable (.simple .boolean noDeco) w = true :=
  c5_union_castability_directional.2.1 (.simple .boolean noDeco)
    (.cons (.simple .boolean noDeco) .nil) noDeco (by decide)

/-- C6: an upstream enum is always castable to the plain string simple
downstream; and any pair not covered by the collection, map, structured-
dataset, union and enum rules is castable iff the two types' essences —
tag, metadata and annotation stripped — are exactly equal. -/
theorem c6_enum_string_and_essence :
    (∀ (values : List String) (d d' : Deco),
        areTypesCastable (.enumType values d) (.simple .string d') = true)
    ∧ (∀ (up dn : LiteralType),
        reachesUnionRule up = true →
        isUnionLT dn = false →
        (isEnumLT up && isStringSimple dn) = false →
          (areTypesCastable up dn = true ↔ typeEssence up = typeEssence dn)) := by
  constructor
  · intro values d d'
    simp [areTypesCastable, castFinal, isEnumLT, isStringSimple]
  · intro up dn h1 h2 h3
    cases up <;> cases dn <;>
      simp_all [areTypesCastable, castFinal, reachesUnionRule, isUnionLT]

/-- Witness for C6 at a concrete decorated pair. -/
theorem c6_enum_string_and_essence_witness :
    areTypesCastable (.simple .integer ⟨some 5, some "t", none⟩)
        (.simple .integer noDeco) = true
      ↔ typeEssence (.simple .integer ⟨some 5, some "t", none⟩)
          = typeEssence (.simple .integer noDeco) :=
  c6_enum_string_and_essence.2 (.simple .integer ⟨some 5, some "t", none⟩)
    (.simple .integer noDeco) (by decide) (by decide) (by decide)

/-- Variants whose own encode raises a caught exception leave the encode
loop state untouched. -/
theorem unionToLiteralLoop_skip_encodeFail (pre rest : List UnionEncodeAttempt)
    (acc : Option (Literal × LiteralType))
    (h : ∀ b ∈ pre, b.encode = none) :
    unionToLiteralLoop (pre ++ rest) acc = unionToLiteralLoop rest acc := by
  induction pre with
  | nil => rfl
  | cons a pre ih =>
      have ha : a.encode = none := h a (by simp)
      have hpre : ∀ b ∈ pre, b.encode = none := fun b hb => h b (by simp [hb])
      calc unionToLiteralLoop ((a :: pre) ++ rest) acc
          = unionToLiteralLoop (pre ++ rest) acc := by
            rw [List.cons_append]
            simp [unionToLiteralLoop, ha]
        _ = unionToLiteralLoop rest acc := ih hpre

/-- With a found result, a run of encode-failing variants ends the loop on
that result. -/
theorem unionToLiteralLoop_allEncodeFail_found (l : List UnionEncodeAttempt)
    (r : Literal) (rt : LiteralType) (h : ∀ b ∈ l, b.encode = none) :
    unionToLiteralLoop l (some (r, rt)) = .ok (r, rt) := by
  have h2 := unionToLiteralLoop_skip_encodeFail l [] (some (r, rt)) h
  rw [List.append_nil] at h2
  rw [h2]
  rfl

/-- A prefix with no fully successful variant leaves an empty loop state
empty: an encode-failing variant changes nothing and a partially
successful one only maps the absent accumulator. -/
theorem unionToLiteralLoop_noFull_pre (pre rest : List UnionEncodeAttempt)
    (h : ∀ b ∈ pre, attemptOk b = false) :
    unionToLiteralLoop (pre ++ rest) none = unionToLiteralLoop rest none := by
  induction pre with
  | nil => rfl
  | cons a pre ih =>
      have ha : attemptOk a = false := h a (by simp)
      have hpre : ∀ b ∈ pre, attemptOk b = false := fun b hb => h b (by simp [hb])
      rw [List.cons_append]
      cases he : a.encode with
      | none =>
          calc unionToLiteralLoop (a :: (pre ++ rest)) none
              = unionToLiteralLoop (pre ++ rest) none := by
                simp [unionToLiteralLoop, he]
            _ = unionToLiteralLoop rest none := ih hpre
      | some res =>
          cases hl : a.litType with
          | none =>
              calc unionToLiteralLoop (a :: (pre ++ rest)) none
                  = unionToLiteralLoop (pre ++ rest) none := by
                    simp [unionToLiteralLoop, he, hl]
                _ = unionToLiteralLoop rest none := ih hpre
          | some lt => exact absurd ha (by simp [attemptOk, he, hl])

/-- Once found_res is set, any later fully successful variant makes the
encode loop raise the ambiguity error (partial successes in between only
reassign the held value). -/
theorem unionToLiteralLoop_found_ambiguous (l : List UnionEncodeAttempt)
    (p : Literal × LiteralType)
    (h : ∃ b ∈ l, attemptOk b = true) :
    unionToLiteralLoop l (some p) = .error .ambiguous := by
  induction l generalizing p with
  | nil => simp at h
  | cons a rest ih =>
      cases he : a.encode with
      | none =>
          have hrest : ∃ b ∈ rest, attemptOk b = true := by
            rcases h with ⟨b, hb, hob⟩
            rcases List.mem_cons.mp hb with rfl | hmem
            · exact absurd hob (by simp [attemptOk, he])
            · exact ⟨b, hmem, hob⟩
          simpa [unionToLiteralLoop, he] using ih p hrest
      | some res =>
          cases hl : a.litType with
          | none =>
              have hrest : ∃ b ∈ rest, attemptOk b = true := by
                rcases h with ⟨b, hb, hob⟩
                rcases List.mem_cons.mp hb with rfl | hmem
                · exact absurd hob (by simp [attemptOk, he, hl])
                · exact ⟨b, hmem, hob⟩
              simpa [unionToLiteralLoop, he, hl] using ih (res, p.2) hrest
          | some lt => simp [unionToLiteralLoop, he, hl]

/-- Two fully successful variants anywhere make the encode loop raise the
ambiguity error. -/
theorem unionToLiteralLoop_two_ambiguous (l : List UnionEncodeAttempt)
    (h : 2 ≤ l.countP attemptOk) :
    unionToLiteralLoop l none = .error .ambiguous := by
  induction l with
  | nil => simp at h
  | cons a rest ih =>
      cases he : a.encode with
      | none =>
          have hfail : attemptOk a = false := by simp [attemptOk, he]
          simp [List.countP_cons, hfail] at h
          simpa [unionToLiteralLoop, he] using ih (by omega)
      | some res =>
          cases hl : a.litType with
          | none =>
              have hfail : attemptOk a = false := by simp [attemptOk, he, hl]
              simp [List.countP_cons, hfail] at h
              simpa [unionToLiteralLoop, he, hl] using ih (by omega)
          | some lt =>
              have hok : attemptOk a = true := by simp [attemptOk, he, hl]
              have h2 : 2 ≤ rest.countP attemptOk + 1 := by
                calc 2 ≤ (a :: rest).countP attemptOk := h
                  _ = rest.countP attemptOk + 1 := by
                      rw [List.countP_cons, hok]; simp
              have hrest : ∃ b ∈ rest, attemptOk b = true :=
                List.countP_pos_iff.mp (by omega)
              simpa [unionToLiteralLoop, he, hl] using
                unionToLiteralLoop_found_ambiguous rest _ hrest

/-- C3 counterexample: a first variant succeeds fully, a second variant's
encode succeeds while its literal-type computation raises a caught
exception: the source reassigns res before the raise, so the call returns
the SECOND variant's encoding under the FIRST variant's tag, with no
ambiguity error — refuting both that the first successful variant
determines the result and that a second successful encode is fatal. -/
theorem c3_partial_success_counterexample :
    unionToLiteral [⟨"int", some (intLiteral 5), some (simpleLT .int)⟩,
        ⟨"str", some (strLiteral "x"), none⟩]
      = .ok (.scalar (.union (strLiteral "x")
          (addTagToType (simpleLT .int) "int")) none) := by
  rfl

/-- C3 (amended): a variant counts as fully successful only when both its
encode and its literal-type computation succeed.  The unique fully
successful variant fixes the stored tag; when every later variant's encode
raises, its own encoding is returned under that tag; two full successes
raise the ambiguous-union-match error; but a later variant whose encode
succeeds while its literal-type computation raises a caught exception
silently overwrites the returned value while the earlier tag is kept. -/
theorem c3_union_encode_first_wins_ambiguity_fatal :
    (∀ (pre post : List UnionEncodeAttempt) (a : UnionEncodeAttempt)
        (res : Literal) (lt : LiteralType),
        (∀ b ∈ pre, attemptOk b = false) →
        a.encode = some res →
        a.litType = some lt →
        (∀ b ∈ post, b.encode = none) →
        unionToLiteral (pre ++ a :: post)
          = .ok (.scalar (.union res (addTagToType lt a.name)) none))
    ∧ (∀ l : List UnionEncodeAttempt, 2 ≤ l.countP attemptOk →
        unionToLiteral l = .error .ambiguous)
    ∧ (∀ (pre mid tail : List UnionEncodeAttempt) (a b : UnionEncodeAttempt)
        (res res2 : Literal) (lt : LiteralType),
        (∀ x ∈ pre, attemptOk x = false) →
        a.encode = some res →
        a.litType = some lt →
        (∀ x ∈ mid, x.encode = none) →
        b.encode = some res2 →
        b.litType = none →
        (∀ x ∈ tail, x.encode = none) →
        unionToLiteral (pre ++ a :: (mid ++ b :: tail))
          = .ok (.scalar (.union res2 (addTagToType lt a.name)) none)) := by
  refine ⟨?_, ?_, ?_⟩
  · intro pre post a res lt hpre he hl hpost
    unfold unionToLiteral
    rw [unionToLiteralLoop_noFull_pre pre (a :: post) hpre]
    have hstep : unionToLiteralLoop (a :: post) none
        = unionToLiteralLoop post (some (res, addTagToType lt a.name)) := by
      simp [unionToLiteralLoop, he, hl]
    rw [hstep, unionToLiteralLoop_allEncodeFail_found post _ _ hpost]
  · intro l h
    unfold unionToLiteral
    rw [unionToLiteralLoop_two_ambiguous l h]
  · intro pre mid tail a b res res2 lt hpre he hl hmid hbe hbl htail
    unfold unionToLiteral
    rw [unionToLiteralLoop_noFull_pre pre (a :: (mid ++ b :: tail)) hpre]
    have hstep : unionToLiteralLoop (a :: (mid ++ b :: tail)) none
        = unionToLiteralLoop (mid ++ b :: tail)
            (some (res, addTagToType lt a.name)) := by
      simp [unionToLiteralLoop, he, hl]
    rw [hstep,
      unionToLiteralLoop_skip_encodeFail mid (b :: tail) _ hmid]
    have hstep2 : unionToLiteralLoop (b :: tail)
          (some (res, addTagToType lt a.name))
        = unionToLiteralLoop tail (some (res2, addTagToType lt a.name)) := by
      simp [unionToLiteralLoop, hbe, hbl]
    rw [hstep2, unionToLiteralLoop_allEncodeFail_found tail _ _ htail]

/-- Witness for C3 (amended): encoding the int value 5 against the
variants [int, str]: the int variant alone succeeds fully (the str
variant's encode raises) and the result is the int encoding tagged with
the int transformer's name. -/
theorem c3_union_encode_witness :
    unionToLiteral [mkSimpleEncodeAttempt .int (.vInt 5),
        mkSimpleEncodeAttempt .str (.vInt 5)]
      = .ok (.scalar (.union (intLiteral 5)
          (addTagToType (simpleLT .int) "int")) none) := by
  have h := c3_union_encode_first_wins_ambiguity_fatal.1 []
    [mkSimpleEncodeAttempt .str (.vInt 5)]
    (mkSimpleEncodeAttempt .int (.vInt 5)) (intLiteral 5) (simpleLT .int)
    (by simp) (by rfl) (by rfl)
    (by
      intro b hb
      simp only [List.mem_singleton] at hb
      subst hb
      rfl)
  simpa [mkSimpleEncodeAttempt] using h

/-- A variant contributing no result is stepped over by the tagged decode
loop. -/
theorem taggedLoop_skip_one (tg : String) (stored : LiteralType) (inner : Literal)
    (v : UnionDecodeVariant) (rest : List UnionDecodeVariant) (acc : Option PyVal)
    (h : taggedNoResult tg stored inner v = true) :
    taggedLoop tg stored inner (v :: rest) acc = taggedLoop tg stored inner rest acc := by
  by_cases h1 : v.name ≠ tg ∧ v.isDataclass = false
  · simp [taggedLoop, h1]
  · by_cases h2 : areTypesCastable stored v.litType = false
    · simp [taggedLoop, h1, h2]
    · cases hd : v.decode inner with
      | none => simp [taggedLoop, h1, h2, hd]
      | some r =>
          exfalso
          have hcast : areTypesCastable stored v.litType = true := by
            cases hc : areTypesCastable stored v.litType
            · exact absurd hc h2
            · rfl
          simp [taggedNoResult, hd, hcast] at h
          exact h1 h

/-- A run of no-result variants leaves the tagged decode loop on its
accumulator. -/
theorem taggedLoop_allNoResult (tg : String) (stored : LiteralType)
    (inner : Literal) (l : List UnionDecodeVariant) (acc : Option PyVal)
    (h : ∀ v ∈ l, taggedNoResult tg stored inner v = true) :
    taggedLoop tg stored inner l acc
      = match acc with
        | none => .error .cannotConvert
        | some r => .ok r := by
  induction l with
  | nil => cases acc <;> rfl
  | cons v rest ih =>
      rw [taggedLoop_skip_one tg stored inner v rest acc (h v (by simp))]
      exact ih (fun b hb => h b (by simp [hb]))

/-- A prefix of no-result variants is skipped by the tagged decode loop. -/
theorem taggedLoop_skip_pre (tg : String) (stored : LiteralType)
    (inner : Literal) (pre rest : List UnionDecodeVariant) (acc : Option PyVal)
    (h : ∀ v ∈ pre, taggedNoResult tg stored inner v = true) :
    taggedLoop tg stored inner (pre ++ rest) acc
      = taggedLoop tg stored inner rest acc := by
  induction pre with
  | nil => rfl
  | cons v pre ih =>
      rw [List.cons_append,
        taggedLoop_skip_one tg stored inner v (pre ++ rest) acc (h v (by simp))]
      exact ih (fun b hb => h b (by simp [hb]))

/-- A variant whose decode raises is stepped over by the untagged decode
loop. -/
theorem untaggedLoop_skip_one (lv : Literal) (v : UnionDecodeVariant)
    (rest : List UnionDecodeVariant) (acc : Option PyVal)
    (h : v.decode lv = none) :
    untaggedLoop lv (v :: rest) acc = untaggedLoop lv rest acc := by
  simp [untaggedLoop, h]

/-- A run of failing variants leaves the untagged decode loop on its
accumulator. -/
theorem untaggedLoop_allFail (lv : Literal) (l : List UnionDecodeVariant)
    (acc : Option PyVal) (h : ∀ v ∈ l, v.decode lv = none) :
    untaggedLoop lv l acc
      = match acc with
        | none => .error .cannotConvert
        | some r => .ok r := by
  induction l with
  | nil => cases acc <;> rfl
  | cons v rest ih =>
      rw [untaggedLoop_skip_one lv v rest acc (h v (by simp))]
      exact ih (fun b hb => h b (by simp [hb]))

/-- A prefix of failing variants is skipped by the untagged decode loop. -/
theorem untaggedLoop_skip_pre (lv : Literal) (pre rest : List UnionDecodeVariant)
    (acc : Option PyVal) (h : ∀ v ∈ pre, v.decode lv = none) :
    untaggedLoop lv (pre ++ rest) acc = untaggedLoop lv rest acc := by
  induction pre with
  | nil => rfl
  | cons v pre ih =>
      rw [List.cons_append, untaggedLoop_skip_one lv v (pre ++ rest) acc (h v (by simp))]
      exact ih (fun b hb => h b (by simp [hb]))

/-- A variant that does not survive as a success of the tagged loop
contributes no result. -/
theorem taggedNoResult_of_not_success (tg : String) (stored : LiteralType)
    (inner : Literal) (v : UnionDecodeVariant)
    (h : taggedSuccess tg stored inner v = false) :
    taggedNoResult tg stored inner v = true := by
  cases hn : (v.name == tg || v.isDataclass) <;>
    cases hc : areTypesCastable stored v.litType <;>
      cases hd : v.decode inner <;>
        simp_all [taggedSuccess, taggedNoResult]

/-- Once a result is held in the tagged decode loop, any later surviving
success raises the ambiguity error. -/
theorem taggedLoop_found_ambiguous (tg : String) (stored : LiteralType)
    (inner : Literal) (l : List UnionDecodeVariant) (r : PyVal)
    (h : ∃ v ∈ l, taggedSuccess tg stored inner v = true) :
    taggedLoop tg stored inner l (some r) = .error .ambiguous := by
  induction l with
  | nil => simp at h
  | cons v rest ih =>
      cases hs : taggedSuccess tg stored inner v with
      | false =>
          have hrest : ∃ b ∈ rest, taggedSuccess tg stored inner b = true := by
            rcases h with ⟨b, hb, hob⟩
            rcases List.mem_cons.mp hb with rfl | hmem
            · exact absurd hob (by simp [hs])
            · exact ⟨b, hmem, hob⟩
          rw [taggedLoop_skip_one tg stored inner v rest (some r)
            (taggedNoResult_of_not_success tg stored inner v hs)]
          exact ih hrest
      | true =>
          have hs' := hs
          simp only [taggedSuccess, Bool.and_eq_true] at hs'
          obtain ⟨⟨hgate, hcast⟩, hd⟩ := hs'
          obtain ⟨rv, hrv⟩ := Option.isSome_iff_exists.mp hd
          have hnotskip : ¬ (v.name ≠ tg ∧ v.isDataclass = false) := by
            have hgate2 : (v.name == tg) = true ∨ v.isDataclass = true := by
              simpa using hgate
            rcases hgate2 with h' | h'
            · exact fun hc => hc.1 (by simpa using h')
            · exact fun hc => by rw [h'] at hc; exact absurd hc.2 (by simp)
          simp [taggedLoop, hnotskip, hcast, hrv]

/-- Two surviving successes anywhere make the tagged decode loop raise the
ambiguity error. -/
theorem taggedLoop_two_ambiguous (tg : String) (stored : LiteralType)
    (inner : Literal) (l : List UnionDecodeVariant)
    (h : 2 ≤ l.countP (taggedSuccess tg stored inner)) :
    taggedLoop tg stored inner l none = .error .ambiguous := by
  induction l with
  | nil => simp at h
  | cons v rest ih =>
      cases hs : taggedSuccess tg stored inner v with
      | false =>
          simp [List.countP_cons, hs] at h
          rw [taggedLoop_skip_one tg stored inner v rest none
            (taggedNoResult_of_not_success tg stored inner v hs)]
          exact ih (by omega)
      | true =>
          have hs' := hs
          simp only [taggedSuccess, Bool.and_eq_true] at hs'
          obtain ⟨⟨hgate, hcast⟩, hd⟩ := hs'
          obtain ⟨rv, hrv⟩ := Option.isSome_iff_exists.mp hd
          have hnotskip : ¬ (v.name ≠ tg ∧ v.isDataclass = false) := by
            have hgate2 : (v.name == tg) = true ∨ v.isDataclass = true := by
              simpa using hgate
            rcases hgate2 with h' | h'
            · exact fun hc => hc.1 (by simpa using h')
            · exact fun hc => by rw [h'] at hc; exact absurd hc.2 (by simp)
          have hstep : taggedLoop tg stored inner (v :: rest) none
              = taggedLoop tg stored inner rest (some rv) := by
            simp [taggedLoop, hnotskip, hcast, hrv]
          have h2 : 2 ≤ rest.countP (taggedSuccess tg stored inner) + 1 := by
            calc 2 ≤ ((v :: rest).countP (taggedSuccess tg stored inner)) := h
              _ = rest.countP (taggedSuccess tg stored inner) + 1 := by
                  rw [List.countP_cons, hs]; simp
          have hrest : ∃ b ∈ rest, taggedSuccess tg stored inner b = true :=
            List.countP_pos_iff.mp (by omega)
          rw [hstep]
          exact taggedLoop_found_ambiguous tg stored inner rest rv hrest

/-- Once a result is held in the untagged decode loop, any later
successful decode raises the ambiguity error. -/
theorem untaggedLoop_found_ambiguous (lv : Literal)
    (l : List UnionDecodeVariant) (r : PyVal)
    (h : ∃ v ∈ l, (v.decode lv).isSome = true) :
    untaggedLoop lv l (some r) = .error .ambiguous := by
  induction l with
  | nil => simp at h
  | cons v rest ih =>
      cases hd : v.decode lv with
      | none =>
          have hrest : ∃ b ∈ rest, (b.decode lv).isSome = true := by
            rcases h with ⟨b, hb, hob⟩
            rcases List.mem_cons.mp hb with rfl | hmem
            · exact absurd hob (by simp [hd])
            · exact ⟨b, hmem, hob⟩
          rw [untaggedLoop_skip_one lv v rest (some r) hd]
          exact ih hrest
      | some rv => simp [untaggedLoop, hd]

/-- Two successful decodes anywhere make the untagged decode loop raise
the ambiguity error. -/
theorem untaggedLoop_two_ambiguous (lv : Literal)
    (l : List UnionDecodeVariant)
    (h : 2 ≤ l.countP (fun v => (v.decode lv).isSome)) :
    untaggedLoop lv l none = .error .ambiguous := by
  induction l with
  | nil => simp at h
  | cons v rest ih =>
      cases hd : v.decode lv with
      | none =>
          simp [List.countP_cons, hd] at h
          rw [untaggedLoop_skip_one lv v rest none hd]
          exact ih (by omega)
      | some rv =>
          have h2 : 2 ≤ rest.countP (fun v => (v.decode lv).isSome) + 1 := by
            calc 2 ≤ ((v :: rest).countP (fun v => (v.decode lv).isSome)) := h
              _ = rest.countP (fun v => (v.decode lv).isSome) + 1 := by
                  simp [List.countP_cons, hd]
          have hrest : ∃ b ∈ rest, (b.decode lv).isSome = true := by
            have := List.countP_pos_iff.mp (show 0 < rest.countP
              (fun v => (v.decode lv).isSome) by omega)
            simpa using this
          have hstep : untaggedLoop lv (v :: rest) none
              = untaggedLoop lv rest (some rv) := by
            simp [untaggedLoop, hd]
          rw [hstep]
          exact untaggedLoop_found_ambiguous lv rest rv hrest

/-- C4 counterexample: a union literal whose stored type carries the tag
of the sole declared variant (int) but whose stored essence is string: the
tag resolves to the int variant and decoding the inner value directly with
that variant succeeds, yet the call fails because the castability gate —
absent from the claim — skips the variant; there is no direct decode and no
fallback. -/
theorem c4_tagged_decode_counterexample :
    unionToPythonValue [mkSimpleDecodeVariant .int] lvStrTaggedInt
      = .error .cannotConvert
    ∧ (mkSimpleDecodeVariant .int).decode (intLiteral 7) = some (.vInt 7)
    ∧ (mkSimpleDecodeVariant .int).name = "int"
    ∧ storedStrTaggedInt.deco.tag = some "int" := by
  refine ⟨?_, rfl, rfl, rfl⟩
  have hcast : areTypesCastable (LiteralType.simple .string ⟨none, some "int", none⟩)
      (simpleLT .int) = false := by
    simp [simpleLT, areTypesCastable, castFinal, typeEssence,
      isEnumLT, isStringSimple, noDeco]
  simp [unionToPythonValue, unionStoredInfo, lvStrTaggedInt, taggedLoop,
    mkSimpleDecodeVariant, hcast, storedStrTaggedInt, LiteralType.deco, simpleName]

/-- C4 (amended): when the stored union type carries a tag, only variants
whose transformer name equals the tag or which are dataclasses, and whose
stored type is castable to the variant's literal type, are attempted (on
the inner union value): if every variant contributes no result the call
fails without falling back to try-all, a unique surviving success is
returned, and two surviving successes raise the ambiguity error; the
try-every-variant path (decoding the whole literal) runs exactly when the
literal carries no stored tag, a unique success winning and two successes
raising the ambiguity error there as well. -/
theorem c4_union_decode_tag_dispatch :
    (∀ (tg : String) (stored : LiteralType) (inner : Literal)
        (vars : List UnionDecodeVariant),
        stored.deco.tag = some tg →
        (∀ v ∈ vars, taggedNoResult tg stored inner v = true) →
        unionToPythonValue vars (.scalar (.union inner stored) none)
          = .error .cannotConvert)
    ∧ (∀ (tg : String) (stored : LiteralType) (inner : Literal)
        (pre post : List UnionDecodeVariant) (a : UnionDecodeVariant) (r : PyVal),
        stored.deco.tag = some tg →
        (∀ v ∈ pre, taggedNoResult tg stored inner v = true) →
        (a.name = tg ∨ a.isDataclass = true) →
        areTypesCastable stored a.litType = true →
        a.decode inner = some r →
        (∀ v ∈ post, taggedNoResult tg stored inner v = true) →
        unionToPythonValue (pre ++ a :: post) (.scalar (.union inner stored) none)
          = .ok r)
    ∧ (∀ (lv : Literal) (pre post : List UnionDecodeVariant)
        (a : UnionDecodeVariant) (r : PyVal),
        noStoredTag lv = true →
        (∀ v ∈ pre, v.decode lv = none) →
        a.decode lv = some r →
        (∀ v ∈ post, v.decode lv = none) →
        unionToPythonValue (pre ++ a :: post) lv = .ok r)
    ∧ (∀ (tg : String) (stored : LiteralType) (inner : Literal)
        (vars : List UnionDecodeVariant),
        stored.deco.tag = some tg →
        2 ≤ vars.countP (taggedSuccess tg stored inner) →
        unionToPythonValue vars (.scalar (.union inner stored) none)
          = .error .ambiguous)
    ∧ (∀ (lv : Literal) (vars : List UnionDecodeVariant),
        noStoredTag lv = true →
        2 ≤ vars.countP (fun v => (v.decode lv).isSome) →
        unionToPythonValue vars lv = .error .ambiguous) := by
  refine ⟨?_, ?_, ?_, ?_, ?_⟩
  · intro tg stored inner vars htag hall
    simp only [unionToPythonValue, unionStoredInfo, htag]
    rw [taggedLoop_allNoResult tg stored inner vars none hall]
  · intro tg stored inner pre post a r htag hpre helig hcast hdec hpost
    simp only [unionToPythonValue, unionStoredInfo, htag]
    rw [taggedLoop_skip_pre tg stored inner pre (a :: post) none hpre]
    have hnotskip : ¬ (a.name ≠ tg ∧ a.isDataclass = false) := by
      rcases helig with h | h
      · exact fun hc => hc.1 h
      · exact fun hc => by rw [h] at hc; exact absurd hc.2 (by simp)
    have hstep : taggedLoop tg stored inner (a :: post) none
        = taggedLoop tg stored inner post (some r) := by
      simp [taggedLoop, hnotskip, hcast, hdec]
    rw [hstep, taggedLoop_allNoResult tg stored inner post (some r) hpost]
  · intro lv pre post a r hno hpre hdec hpost
    have hrun : unionToPythonValue (pre ++ a :: post) lv
        = untaggedLoop lv (pre ++ a :: post) none := by
      unfold unionToPythonValue
      cases hinfo : unionStoredInfo lv with
      | none => simp
      | some p =>
          obtain ⟨stored, inner⟩ := p
          have htag : stored.deco.tag = none := by
            simp [noStoredTag, hinfo] at hno
            cases ht : stored.deco.tag with
            | none => rfl
            | some t => rw [ht] at hno; simp at hno
          simp [htag]
    rw [hrun, untaggedLoop_skip_pre lv pre (a :: post) none hpre]
    have hstep : untaggedLoop lv (a :: post) none
        = untaggedLoop lv post (some r) := by
      simp [untaggedLoop, hdec]
    rw [hstep, untaggedLoop_allFail lv post (some r) hpost]
  · intro tg stored inner vars htag hcount
    simp only [unionToPythonValue, unionStoredInfo, htag]
    exact taggedLoop_two_ambiguous tg stored inner vars hcount
  · intro lv vars hno hcount
    have hrun : unionToPythonValue vars lv = untaggedLoop lv vars none := by
      unfold unionToPythonValue
      cases hinfo : unionStoredInfo lv with
      | none => simp
      | some p =>
          obtain ⟨stored, inner⟩ := p
          have htag : stored.deco.tag = none := by
            simp [noStoredTag, hinfo] at hno
            cases ht : stored.deco.tag with
            | none => rfl
            | some t => rw [ht] at hno; simp at hno
          simp [htag]
    rw [hrun]
    exact untaggedLoop_two_ambiguous lv vars hcount

/-- Witness for C4 (amended): decoding a correctly tagged int union literal
against the variants [str, int]: the str variant is skipped by the tag
check and the int variant decodes the inner value. -/
theorem c4_union_decode_tag_dispatch_witness :
    unionToPythonValue [mkSimpleDecodeVariant .str, mkSimpleDecodeVariant .int]
      (.scalar (.union (intLiteral 3) (addTagToType (simpleLT .int) "int")) none)
      = .ok (.vInt 3) := by
  have h := c4_union_decode_tag_dispatch.2.1 "int"
    (addTagToType (simpleLT .int) "int") (intLiteral 3)
    [mkSimpleDecodeVariant .str] [] (mkSimpleDecodeVariant .int) (.vInt 3)
    (by rfl)
    (by
      intro v hv
      simp only [List.mem_singleton] at hv
      subst hv
      simp [taggedNoResult, mkSimpleDecodeVariant, simpleName])
    (Or.inl rfl)
    (by
      simp [addTagToType, simpleLT, mkSimpleDecodeVariant, areTypesCastable,
        castFinal, typeEssence, isEnumLT, isStringSimple, noDeco])
    (by rfl)
    (by simp)
  exact h

/-- C7 counterexample: a record {a: int, b: str} whose field b carries a
declared default decodes successfully from a wire map missing b — the
decode walk skips absent fields and the constructor fills the default —
refuting the claim that every declared field must be present. -/
theorem c7_defaulted_field_counterexample :
    dataclassToPythonValue rtABdef (aOnlyMap 1)
      = .ok [("a", .vInt 1), ("b", .vStr "fallback")] := by
  rfl

/-- C7 (amended): decoding a wire map into a record skips absent fields and
then invokes the record constructor, which fails exactly on an absent field
without a default: the record {a: int, b: str} (no defaults) round-trips
exactly through encode and decode, and decoding a wire map missing field b
fails with the constructor's missing-argument error. -/
theorem c7_record_roundtrip_and_missing_field :
    ∀ (x : Int) (s : String),
      dataclassToLiteral rtAB [("a", .vInt x), ("b", .vStr s)] = .ok (abMap x s)
      ∧ dataclassToPythonValue rtAB (abMap x s) = .ok [("a", .vInt x), ("b", .vStr s)]
      ∧ dataclassToPythonValue rtAB (aOnlyMap x) = .error (.missingConstructorArg "b") := by
  intro x s
  refine ⟨rfl, rfl, rfl⟩

/-- Steps 4 and 5 always return a transformer. -/
theorem inheritanceOrPickle_ok (reg : Registry) (t : PyType) :
    ∃ p, inheritanceOrPickle reg t = .ok p := by
  cases hf : findInheritance reg t with
  | some tr => exact ⟨(tr, reg), by simp [inheritanceOrPickle, hf]⟩
  | none =>
      exact ⟨(.pickleTr t, regInsert reg t (.pickleTr t)),
        by simp [inheritanceOrPickle, hf]⟩

/-- Steps 1 and 3 to 5 of the dispatch always return a transformer: only
the generic branch of step 2 can fail. -/
theorem afterLookup_ok (reg : Registry) (t : PyType)
    (h : ∀ o a, t ≠ PyType.generic o a)
    (hdc : ∀ n fs, t = PyType.dataclassTy n fs →
      ∃ reg2, dispatchFields reg fs = .ok reg2) :
    ∃ p, afterLookup reg t = .ok p := by
  cases hl : regLookup reg t with
  | some tr =>
      refine ⟨(tr, reg), ?_⟩
      rw [afterLookup.eq_def]
      simp [optElim, hl]
  | none =>
      cases t
      case generic o a => exact absurd rfl (h o a)
      case dataclassTy n fs =>
        obtain ⟨reg2, hreg2⟩ := hdc n fs rfl
        exact ⟨(.dataclassTr n, regInsert reg2 (.dataclassTy n fs) (.dataclassTr n)),
          by simp [afterLookup, optElim, hl, hreg2]⟩
      all_goals
        obtain ⟨p, hp⟩ := inheritanceOrPickle_ok reg _
        exact ⟨p, by simp only [afterLookup, optElim, hl]; exact hp⟩

/-- Dispatch totality off the generic shapes, by strong induction on the
size of the queried type: the recursion unwraps Annotated layers and
descends into dataclass field lists. -/
theorem getTransformer_ok_aux : ∀ (n : Nat),
    (∀ (t : PyType), sizeOf t ≤ n → genericFree t = true →
      ∀ (reg : Registry), ∃ p, getTransformer reg t = .ok p)
    ∧ (∀ (fs : PTList), sizeOf fs ≤ n → genericFreeList fs = true →
      ∀ (reg : Registry), ∃ reg2, dispatchFields reg fs = .ok reg2) := by
  intro n
  induction n with
  | zero =>
      constructor
      · intro t ht
        exfalso
        cases t <;> simp at ht
      · intro fs hf
        exfalso
        cases fs <;> simp at hf
  | succ n ih =>
      obtain ⟨ihT, ihL⟩ := ih
      constructor
      · intro t ht hg reg
        cases t
        case annotated b =>
          cases b
          case annotated c =>
            cases hl : regLookup reg (.annotated c) with
            | some tr => exact ⟨(tr, reg), by simp [getTransformer, hl]⟩
            | none =>
                have hc : genericFree c = true := by
                  simpa [genericFree] using hg
                have hsz : sizeOf c ≤ n := by
                  simp at ht
                  omega
                obtain ⟨p, hp⟩ := ihT c hsz hc reg
                exact ⟨p, by simp [getTransformer, hl, hp]⟩
          case generic o a => simp [genericFree] at hg
          case dataclassTy m fs =>
            have hfs : genericFreeList fs = true := by
              simpa [genericFree] using hg
            have hsz : sizeOf fs ≤ n := by
              simp at ht
              omega
            obtain ⟨p, hp⟩ := afterLookup_ok reg (.dataclassTy m fs)
              (fun o a hne => by cases hne)
              (fun n2 fs2 heq => by cases heq; exact ihL fs hsz hfs reg)
            exact ⟨p, by simp only [getTransformer]; exact hp⟩
          all_goals
            simp only [getTransformer]
            exact afterLookup_ok reg _ (fun o a hne => by cases hne)
              (fun n2 fs2 heq => by cases heq)
        case generic o a => simp [genericFree] at hg
        case dataclassTy m fs =>
          have hfs : genericFreeList fs = true := by
            simpa [genericFree] using hg
          have hsz : sizeOf fs ≤ n := by
            simp at ht
            omega
          obtain ⟨p, hp⟩ := afterLookup_ok reg (.dataclassTy m fs)
            (fun o a hne => by cases hne)
            (fun n2 fs2 heq => by cases heq; exact ihL fs hsz hfs reg)
          exact ⟨p, by simp only [getTransformer]; exact hp⟩
        all_goals
          simp only [getTransformer]
          exact afterLookup_ok reg _ (fun o a hne => by cases hne)
            (fun n2 fs2 heq => by cases heq)
      · intro fs hf hfree reg
        cases fs with
        | nil => exact ⟨reg, by simp [dispatchFields]⟩
        | cons f rest =>
            have hsplit : genericFree f = true ∧ genericFreeList rest = true := by
              simpa [genericFreeList, Bool.and_eq_true] using hfree
            have hszf : sizeOf f ≤ n := by
              simp at hf
              omega
            have hszr : sizeOf rest ≤ n := by
              simp at hf
              omega
            obtain ⟨⟨tr, reg2⟩, hp⟩ := ihT f hszf hsplit.1 reg
            obtain ⟨reg3, h3⟩ := ihL rest hszr hsplit.2 reg2
            exact ⟨reg3, by simp [dispatchFields, hp, h3]⟩

/-- C2 counterexample: dispatching a parameterized generic whose origin is
an unregistered class raises the unsupported-generic failure at step 2 and
never reaches the pickle fallback of step 5 — refuting the claim that
get_transformer is total. -/
theorem c2_generic_origin_counterexample :
    getTransformer defaultRegistry (.generic (.classNoBase "set") .int)
      = .error (.unsupportedGeneric (.classNoBase "set")) := by
  have h1 : regLookup defaultRegistry (.generic (.classNoBase "set") .int) = none := by
    decide
  have h2 : regLookup defaultRegistry (.classNoBase "set") = none := by
    decide
  simp [getTransformer, afterLookup, optElim, h1, h2]

/-- C2 (amended): get_transformer returns a transformer for every queried
type in which no parameterized generic is reachable by the dispatch (via
Annotated unwrapping or a dataclass's eagerly dispatched field types); a
parameterized generic that is not itself registered and whose origin is
not registered fails with the unsupported-generic error, and tier 3's
eager construction of a dataclass transformer propagates that failure for
a dataclass declaring such a field; any plain unmatched type is
auto-registered with the pickle fallback by tier 5. -/
theorem c2_dispatch_total_except_generic :
    (∀ (reg : Registry) (t : PyType), genericFree t = true →
        ∃ p, getTransformer reg t = .ok p)
    ∧ (∀ (reg : Registry) (o a : PyType),
        regLookup reg (.generic o a) = none → regLookup reg o = none →
        getTransformer reg (.generic o a) = .error (.unsupportedGeneric o))
    ∧ (∀ (reg : Registry) (t : PyType), isPlainForDispatch t = true →
        regLookup reg t = none → findInheritance reg t = none →
        getTransformer reg t = .ok (.pickleTr t, regInsert reg t (.pickleTr t)))
    ∧ getTransformer defaultRegistry
        (.dataclassTy "WithSetField"
          (.cons (.generic (.classNoBase "set") .int) .nil))
        = .error (.unsupportedGeneric (.classNoBase "set")) := by
  refine ⟨?_, ?_, ?_, ?_⟩
  · intro reg t h
    exact (getTransformer_ok_aux (sizeOf t)).1 t le_rfl h reg
  · intro reg o a h1 h2
    simp [getTransformer, afterLookup, optElim, h1, h2]
  · intro reg t hplain h1 h2
    cases t <;>
      simp_all [getTransformer, afterLookup, optElim, isPlainForDispatch, inheritanceOrPickle]
  · have h1 : regLookup defaultRegistry
        (.dataclassTy "WithSetField"
          (.cons (.generic (.classNoBase "set") .int) .nil)) = none := by
      decide
    have h2 : regLookup defaultRegistry (.generic (.classNoBase "set") .int) = none := by
      decide
    have h3 : regLookup defaultRegistry (.classNoBase "set") = none := by
      decide
    simp [getTransformer, afterLookup, optElim, dispatchFields, h1, h2, h3]

/-- Witness for C2 (amended): an unregistered plain class with no
inheritance match is auto-registered with the pickle fallback. -/
theorem c2_dispatch_total_except_generic_witness :
    getTransformer defaultRegistry (.classNoBase "Widget")
      = .ok (.pickleTr (.classNoBase "Widget"),
          regInsert defaultRegistry (.classNoBase "Widget")
            (.pickleTr (.classNoBase "Widget"))) :=
  c2_dispatch_total_except_generic.2.2.1 defaultRegistry (.classNoBase "Widget")
    (by rfl) (by rfl) (by rfl)

/-- C8: evaluating the resolver at the failing input.  With no as_type, no
hint and no variable map, the source constructs the inference ValueError
but never raises it (type_engine.py line 1325 lacks the raise), so the call
proceeds to decode with as_type still None and fails inside the engine with
a TypeTransformerFailedError from the none transformer's expected-type
check — not with the inference error the specification demands.  When a
variable map is present and the guess fails (an enum wire type, which no
registered transformer's guess claims), the error is raised as
specified. -/
theorem c8_inference_error_not_raised :
    resolverGet resolverNoVarMap "x" none = .error (.conversion .expectedTypeMismatch)
    ∧ resolverGet resolverEnumVar "x" none = .error (.guessFailed "x") := by
  refine ⟨rfl, rfl⟩

/-- Appending a fresh key to an association list makes it found. -/
theorem alookup_append_last {α : Type} (xs : List (String × α)) (k : String)
    (a : α) (h : alookup xs k = none) :
    alookup (xs ++ [(k, a)]) k = some a := by
  induction xs with
  | nil => simp [alookup]
  | cons p rest ih =>
      obtain ⟨k0, a0⟩ := p
      simp only [alookup, List.cons_append] at h ⊢
      by_cases hk : k0 = k
      · rw [if_pos hk] at h
        exact absurd h (by simp)
      · rw [if_neg hk] at h ⊢
        exact ih h

/-- A successful resolver read leaves the key present in the backing map
and its decoded value present in the cache of the returned state. -/
theorem resolverGet_ok_state (r : Resolver) (k : String) (t1 : Option SimplePy)
    (v : PyVal) (r2 : Resolver) (n : Nat)
    (h : resolverGet r k t1 = .ok (v, r2, n)) :
    (∃ lit, alookup r2.literals k = some lit)
    ∧ alookup r2.nativeValues k = some v := by
  unfold resolverGet at h
  split at h
  · exact absurd h (by simp)
  case _ lit hlit =>
    split at h
    case _ v0 hcache =>
      simp only [Except.ok.injEq, Prod.mk.injEq] at h
      obtain ⟨rfl, rfl, rfl⟩ := h
      exact ⟨⟨lit, hlit⟩, hcache⟩
    case _ hcache =>
      cases htier : resolveAsType r k t1 with
      | error e => rw [htier] at h; exact absurd h (by simp)
      | ok resolved =>
          rw [htier] at h
          dsimp only at h
          cases hval : engineToPythonValue lit (pyTypeArgOf resolved) with
          | error e => rw [hval] at h; exact absurd h (by simp)
          | ok val =>
              rw [hval] at h
              simp only [Except.ok.injEq, Prod.mk.injEq] at h
              obtain ⟨rfl, rfl, rfl⟩ := h
              refine ⟨⟨lit, hlit⟩, ?_⟩
              exact alookup_append_last r.nativeValues k val hcache

/-- C9: after the first successful get for a key, the decoded native value
is cached: every later get — with any as_type, including a different one —
and every later index access returns the identical cached value with zero
further engine decodes. -/
theorem c9_resolver_caches_decoded_value (r : Resolver) (k : String)
    (t1 : Option SimplePy) (v : PyVal) (r2 : Resolver) (n : Nat)
    (h : resolverGet r k t1 = .ok (v, r2, n)) :
    (∀ t2 : Option SimplePy, resolverGet r2 k t2 = .ok (v, r2, 0))
    ∧ resolverGetItem r2 k = .ok (v, r2, 0) := by
  obtain ⟨⟨lit, h1⟩, h2⟩ := resolverGet_ok_state r k t1 v r2 n h
  constructor
  · intro t2
    unfold resolverGet
    rw [h1, h2]
  · unfold resolverGetItem
    rw [h1, h2]

/-- Witness for C9: a first get with as_type str decodes and caches; a
second get with a different as_type (int) and an index access both return
the cached value without decoding. -/
theorem c9_resolver_caches_decoded_value_witness :
    resolverGet resolverAfterGet "x" (some .int)
      = .ok (.vStr "hi", resolverAfterGet, 0)
    ∧ resolverGetItem resolverAfterGet "x"
      = .ok (.vStr "hi", resolverAfterGet, 0) := by
  have h : resolverGet resolverNoVarMap "x" (some .str)
      = .ok (.vStr "hi", resolverAfterGet, 1) := by rfl
  have hc := c9_resolver_caches_decoded_value resolverNoVarMap "x" (some .str)
    (.vStr "hi") resolverAfterGet 1 h
  exact ⟨hc.1 (some .int), hc.2⟩

end Flyte
